import Mathlib

/-
Verification development for the news-world-monitor rollup engine and
hierarchical article cache.

The definitions below are a shallow embedding of the Python sources:
  * news_atlas/article_smart_cache.py  (SmartArticleCache)
  * news_atlas/news_data_loader.py     (NewsDataLoader.top_entities)
  * news_processor/firestore_rollup.py (FirestoreRollup.apply_for_article)

Modelling conventions:
  * Python optional strings are modelled as `String`, with the empty string
    standing for both `None` and `""` (both are falsy in the source's
    truthiness tests such as `if country:`).
  * Python dicts are modelled as association lists in insertion order;
    updating an existing key keeps its position, a new key is appended,
    matching CPython dict semantics.
  * Firestore documents are modelled as association lists from document
    path components to record structures; `tx.set(..., merge=True)` with
    `firestore.Increment(1)` becomes an in-place bump of the addressed cell.
  * `datetime.now(timezone.utc)` is an effect; it is modelled by passing the
    current time as an explicit `now` argument.
  * Fallible calls (the DB loader used by the cache fallback) return
    `Except String`.
-/

namespace NWM

/-! ### Articles as seen by the news_atlas cache layer -/

/-- An article record as stored and served by the news_atlas layer, with the
fields the cache logic reads: `country`, `entityNameSlug` and `time`.  An
absent country is the empty string; `entityNameSlug` is `none` when the stored
field is not a list of slugs (the `isinstance` check in `_matches`); `time` is
an abstract sortable timestamp. -/
structure Article where
  id : String
  country : String
  entityNameSlug : Option (List String)
  time : Nat
  deriving Repr, DecidableEq

/-- Python `str.lower()`: character-wise lowercasing (the sources only ever
lowercase ASCII slugs and names). -/
def pyLower (s : String) : String :=
  String.mk (s.data.map Char.toLower)

/-- Python `str.upper()`: character-wise uppercasing. -/
def pyUpper (s : String) : String :=
  String.mk (s.data.map Char.toUpper)

/-- Embeds `SmartArticleCache._matches`, entity part: the lowercased,
space-to-dash slug of the filter occurs in the lowercased slug list, or the
raw filter string occurs in the slug list.  `.replace(" ", "-")` with a
one-character pattern is a character map. -/
def matchesEntitySlugs (slugs : List String) (entity : String) : Bool :=
  let entSlug := String.mk ((pyLower entity).data.map (fun c => if c = ' ' then '-' else c))
  let lowset := slugs.map pyLower
  lowset.contains entSlug || slugs.contains entity

/-- Embeds `SmartArticleCache._matches`: a record matches the (possibly
empty) country and entity filters. -/
def SmartArticleCache.matchesFilter (a : Article) (country entity : String) : Bool :=
  if country != "" && a.country != country then false
  else if entity != "" then
    match a.entityNameSlug with
    | none => false
    | some slugs => matchesEntitySlugs slugs entity
  else true

/-- Embeds `SmartArticleCache._sort_trim`: stable sort by `time` descending
(Python `sorted(..., reverse=True)` is stable), then truncate to `limit`. -/
def SmartArticleCache.sortTrim (rows : List Article) (limit : Nat) : List Article :=
  (rows.insertionSort (fun a b => b.time ≤ a.time)).take limit

/-! ### Python dict helpers -/

/-- First-match lookup in an association list (Python `dict` lookup once the
dict has unique keys, which all dicts built by the sources have). -/
def mapFind {κ α : Type} [DecidableEq κ] : List (κ × α) → κ → Option α
  | [], _ => none
  | p :: rest, k => if p.1 = k then some p.2 else mapFind rest k

/-- Python dict update `d[k] = v`: replace in place when the key exists
(keeping its position), append otherwise. -/
def mapSet {κ α : Type} [DecidableEq κ] : List (κ × α) → κ → α → List (κ × α)
  | [], k, v => [(k, v)]
  | p :: rest, k, v => if p.1 = k then (k, v) :: rest else p :: mapSet rest k v

/-- Python `dict(pairs)` followed by `.get(k, dflt)`: on duplicate keys the
last pair wins, matching dict construction from an iterable of pairs. -/
def lookupLast : List (String × Int) → String → Option Int
  | [], _ => none
  | p :: rest, k =>
    match lookupLast rest k with
    | some v => some v
    | none => if p.1 = k then some p.2 else none

/-- Python `dict(pairs).get(k, dflt)`. -/
def pyDictGet (d : List (String × Int)) (k : String) (dflt : Int) : Int :=
  match lookupLast d k with
  | some v => v
  | none => dflt

/-! ### SmartArticleCache -/

/-- The cache store: a dict from string keys to article lists. -/
abbrev Store := List (String × List Article)

/-- Embeds `SmartArticleCache._key`. -/
def SmartArticleCache.cacheKey (hour country entity : String) : String :=
  hour ++ "|" ++ country ++ "|" ++ entity

/-- Embeds `SmartArticleCache._expected_count`.  The three snapshot arguments
model the Python dict/iterable arguments; the empty list stands for both
`None` and an empty container (both falsy). -/
def SmartArticleCache.expectedCount (country entity : String)
    (totalsByIso entityBreakdownByIso globalTopEntities : List (String × Int)) :
    Option Int :=
  if entity ≠ "" ∧ country ≠ "" then
    if entityBreakdownByIso ≠ [] then some (pyDictGet entityBreakdownByIso country 0)
    else none
  else if entity ≠ "" ∧ country = "" then
    if globalTopEntities ≠ [] then some (pyDictGet globalTopEntities entity 0)
    else none
  else if country ≠ "" ∧ entity = "" then
    if totalsByIso ≠ [] then some (pyDictGet totalsByIso country 0)
    else none
  else none

/-- The backing-store loader used by the cache fallback
(`NewsDataLoader.load_articles(hour, country, entity, limit)`); fallible. -/
abbrev Loader := String → String → String → Nat → Except String (List Article)

/-- Result of `SmartArticleCache.get`: the returned page (or a propagated
loader error), the cache store after the call, and whether the loader was
invoked. -/
structure GetOut where
  res : Except String (List Article)
  store : Store
  loaderCalled : Bool
  deriving Repr

/-- Embeds the `for pkey in parent_keys:` loop of `SmartArticleCache.get`
(step 2, superset reuse): the first cached parent whose records, filtered to
the stricter query, number at least `expected` answers the query and is
stored under the exact key. -/
def SmartArticleCache.tryParents (store : Store) (key : String) (exp : Option Int)
    (country entity : String) (perPage : Nat) : List String → Option GetOut
  | [] => none
  | pkey :: rest =>
    match exp, mapFind store pkey with
    | some e, some parentRows =>
      let filtered := parentRows.filter (fun r => SmartArticleCache.matchesFilter r country entity)
      if e ≤ (filtered.length : Int) then
        some ⟨Except.ok (SmartArticleCache.sortTrim filtered perPage),
              mapSet store key filtered, false⟩
      else SmartArticleCache.tryParents store key exp country entity perPage rest
    | _, _ => SmartArticleCache.tryParents store key exp country entity perPage rest

/-- Embeds `SmartArticleCache.get`: empty-hour guard, exact-hit fast path,
superset-reuse path, then fallback fetch cached under the exact key. -/
def SmartArticleCache.get (store : Store) (hour country entity : String)
    (totalsByIso entityBreakdownByIso globalTopEntities : List (String × Int))
    (loader : Loader) (perPage : Nat) : GetOut :=
  if hour = "" then ⟨Except.ok [], store, false⟩
  else
    let key := SmartArticleCache.cacheKey hour country entity
    match mapFind store key with
    | some rows => ⟨Except.ok (SmartArticleCache.sortTrim rows perPage), store, false⟩
    | none =>
      let exp := SmartArticleCache.expectedCount country entity
        totalsByIso entityBreakdownByIso globalTopEntities
      let parentKeys :=
        if country ≠ "" ∧ entity ≠ "" then
          [SmartArticleCache.cacheKey hour country "", SmartArticleCache.cacheKey hour "" entity]
        else []
      match SmartArticleCache.tryParents store key exp country entity perPage parentKeys with
      | some out => out
      | none =>
        match loader hour country entity perPage with
        | Except.ok fetched =>
          ⟨Except.ok (SmartArticleCache.sortTrim fetched perPage),
           mapSet store key fetched, true⟩
        | Except.error msg => ⟨Except.error msg, store, true⟩

/-! ### NewsDataLoader.top_entities -/

/-- One document of the per-hour `entities` collection as read by
`NewsDataLoader.top_entities`: document id, the stored `entity` display name
(empty string when the field is absent or falsy, so that `dd.get("entity") or
d.id` falls back to the id) and the stored `total`. -/
structure EntityDoc where
  docId : String
  entity : String
  total : Int
  deriving Repr, DecidableEq

/-- The display name chosen by `top_entities`: `dd.get("entity") or d.id`. -/
def EntityDoc.displayName (d : EntityDoc) : String :=
  if d.entity = "" then d.docId else d.entity

/-- Embeds `NewsDataLoader.top_entities` over the hour's entity documents:
the Firestore query orders by `total` descending with a server-side `limit`,
the results are folded into a Python dict keyed by display name (last write
wins on a duplicate name), and the resulting series is sorted by value
descending (`sort_values(ascending=False)`). -/
def NewsDataLoader.topEntities (docs : List EntityDoc) (limit : Nat) :
    List (String × Int) :=
  let ordered := (docs.insertionSort (fun d1 d2 => d2.total ≤ d1.total)).take limit
  let data := ordered.foldl (fun d doc => mapSet d doc.displayName doc.total) []
  data.insertionSort (fun p q => q.2 ≤ p.2)

/-- Counts of a (name, count) sequence are strictly descending: each count is
strictly greater than every later one. -/
def strictlyDescByCount (l : List (String × Int)) : Prop :=
  List.Pairwise (fun p q => q.2 < p.2) l

/-- Counts of a (name, count) sequence are non-increasing (descending with
ties allowed). -/
def descByCount (l : List (String × Int)) : Prop :=
  List.Pairwise (fun p q => q.2 ≤ p.2) l

/-! ### FirestoreRollup: time buckets and slugs -/

/-- A UTC wall-clock instant at the granularity the rollup uses
(`strftime` only reads year, month, day and hour for the bucket). -/
structure DateTimeUTC where
  year : Nat
  month : Nat
  day : Nat
  hour : Nat
  deriving Repr, DecidableEq

/-- Zero-padded two-digit decimal rendering (`%m`, `%d`, `%H`). -/
def pad2 (n : Nat) : String :=
  if n < 10 then "0" ++ toString n else toString n

/-- Zero-padded four-digit decimal rendering (`%Y`). -/
def pad4 (n : Nat) : String :=
  if n < 10 then "000" ++ toString n
  else if n < 100 then "00" ++ toString n
  else if n < 1000 then "0" ++ toString n
  else toString n

/-- Embeds `hour_bucket`: `dt_utc.strftime("%Y%m%d%H")`. -/
def hour_bucket (dt : DateTimeUTC) : String :=
  pad4 dt.year ++ pad2 dt.month ++ pad2 dt.day ++ pad2 dt.hour

/-- A character kept by the slug regex `[^\w\s-]` removal: word characters
(alphanumeric or underscore), whitespace, or a dash. -/
def isSlugKeep (c : Char) : Bool :=
  c.isAlphanum || c = '_' || c.isWhitespace || c = '-'

/-- Embeds `re.sub(r"\s+", "-", ...)`: each maximal whitespace run becomes a
single dash.  The flag records whether the previous character was whitespace. -/
def collapseWS : Bool → List Char → List Char
  | _, [] => []
  | prevWs, c :: rest =>
    if c.isWhitespace then
      (if prevWs then [] else ['-']) ++ collapseWS true rest
    else
      c :: collapseWS false rest

/-- Python `str.strip()`: drop leading and trailing whitespace. -/
def stripWS (cs : List Char) : List Char :=
  ((cs.dropWhile Char.isWhitespace).reverse.dropWhile Char.isWhitespace).reverse

/-- Embeds `slugify` from firestore_rollup.py (identical in
news_data_loader.py): lowercase, drop characters outside `[\w\s-]`, strip,
collapse whitespace runs to dashes, truncate to 128 characters, and fall back
to the literal slug when the result is empty. -/
def slugify (s : String) : String :=
  let cs := (pyLower s).data.filter isSlugKeep
  let cs := collapseWS false (stripWS cs)
  let cs := cs.take 128
  if cs.isEmpty then "entity" else String.mk cs

/-! ### FirestoreRollup: state and apply_for_article -/

/-- One element of an article's `entities` list: `name` and `type` fields,
with the empty string standing for an absent or falsy value (a `None` entry
in the list behaves like one with no name and is skipped). -/
structure EntityRef where
  name : String
  type : String
  deriving Repr, DecidableEq

/-- An article document as read by `apply_for_article`: `time` (none models a
missing or falsy timestamp), `hour` (empty string models a missing hour),
`country` (empty string models a missing country), the `entities` list, and
the `rollups_done` idempotence marker. -/
structure ArticleDoc where
  time : Option DateTimeUTC
  hour : String
  country : String
  entities : List EntityRef
  rollups_done : Bool
  deriving Repr, DecidableEq

/-- The bucket derived in `apply_for_article`:
`hour = a.get("hour") or hour_bucket(_to_utc(a.get("time")) if a.get("time")
else datetime.now(timezone.utc))`. -/
def ArticleDoc.derivedHour (a : ArticleDoc) (now : DateTimeUTC) : String :=
  let dtUtc := match a.time with
    | some t => t
    | none => now
  if a.hour = "" then hour_bucket dtUtc else a.hour

/-- The country derived in `apply_for_article`:
`(a.get("country") or "XX").upper()`. -/
def ArticleDoc.derivedCountry (a : ArticleDoc) : String :=
  pyUpper (if a.country = "" then "XX" else a.country)

/-- The `/mentions/{hour}/countries/{ISO}` document: `{country, total}`. -/
structure CountryCell where
  country : String
  total : Int
  deriving Repr, DecidableEq

/-- The `/mentions/{hour}/entities/{eid}` document: `{entity, type, total}`. -/
structure EntityCell where
  entity : String
  type : String
  total : Int
  deriving Repr, DecidableEq

/-- The `/mentions/{hour}/entities/{eid}/countries/{ISO}` document:
`{country, count}`. -/
structure EntityCountryCell where
  country : String
  count : Int
  deriving Repr, DecidableEq

/-- The `/mentions/{hour}/countries/{ISO}/entities/{eid}` document:
`{entityId, entity, type, count}`. -/
structure CountryEntityCell where
  entityId : String
  entity : String
  type : String
  count : Int
  deriving Repr, DecidableEq

/-- The Firestore state touched by the rollup: the `articles` collection and
the four per-hour counter families (plus the hour marker documents). -/
structure RollupState where
  articles : List (String × ArticleDoc)
  hourDocs : List String
  countryTotal : List ((String × String) × CountryCell)
  entityTotal : List ((String × String) × EntityCell)
  entityCountry : List ((String × String × String) × EntityCountryCell)
  countryEntity : List ((String × String × String) × CountryEntityCell)
  deriving Repr, DecidableEq

/-- The state before any rollup ran: the given articles, no counter cells. -/
def RollupState.init (arts : List (String × ArticleDoc)) : RollupState :=
  ⟨arts, [], [], [], [], []⟩

/-- Embeds `tx.set(mentions_hour, {"hour": hour}, merge=True)`: creates the per-hour
marker document when absent. -/
def insertHourDoc (hs : List String) (h : String) : List String :=
  if hs.contains h then hs else hs ++ [h]

/-- Generic `tx.set(ref, {..., counter: Increment(1)}, merge=True)` on one
counter family: replace the cell at the key in place with its updated value,
or create it at the end of the collection. -/
def bumpWith {κ α : Type} [DecidableEq κ] (m : List (κ × α)) (k : κ)
    (create : α) (update : α → α) : List (κ × α) :=
  match m with
  | [] => [(k, create)]
  | p :: rest =>
    if p.1 = k then (k, update p.2) :: rest
    else p :: bumpWith rest k create update

/-- Embeds `tx.set(country_ref, {"country": ..., "total": Increment(1)}, merge)`:
bump the cell at the key, creating it with total 1. -/
def bumpCountryTotal (m : List ((String × String) × CountryCell))
    (k : String × String) (iso : String) : List ((String × String) × CountryCell) :=
  bumpWith m k ⟨iso, 1⟩ (fun c => ⟨iso, c.total + 1⟩)

/-- Embeds `tx.set(ent_ref, {"entity": name, "type": etype, "total": Increment(1)},
merge)`: bump the cell, overwriting the display name and type. -/
def bumpEntityTotal (m : List ((String × String) × EntityCell))
    (k : String × String) (name etype : String) : List ((String × String) × EntityCell) :=
  bumpWith m k ⟨name, etype, 1⟩ (fun c => ⟨name, etype, c.total + 1⟩)

/-- Embeds `tx.set(ent_country_ref, {"country": ..., "count": Increment(1)}, merge)`. -/
def bumpEntityCountry (m : List ((String × String × String) × EntityCountryCell))
    (k : String × String × String) (iso : String) :
    List ((String × String × String) × EntityCountryCell) :=
  bumpWith m k ⟨iso, 1⟩ (fun c => ⟨iso, c.count + 1⟩)

/-- Embeds `tx.set(country_entity_ref, {"entityId": eid, "entity": name, "type":
etype, "count": Increment(1)}, merge)`. -/
def bumpCountryEntity (m : List ((String × String × String) × CountryEntityCell))
    (k : String × String × String) (eid name etype : String) :
    List ((String × String × String) × CountryEntityCell) :=
  bumpWith m k ⟨eid, name, etype, 1⟩ (fun c => ⟨eid, name, etype, c.count + 1⟩)

/-- One iteration of the `for ent in entities:` loop of `apply_for_article`:
skip entries with no name, otherwise bump the entity total, the
entity-by-country breakdown and the country-by-entity breakdown. -/
def applyEntity (hour country : String) (st : RollupState) (ent : EntityRef) :
    RollupState :=
  if ent.name = "" then st
  else
    let etype := if ent.type = "" then "OTHER" else ent.type
    let eid := slugify ent.name
    let st := { st with entityTotal := bumpEntityTotal st.entityTotal (hour, eid) ent.name etype }
    let st := { st with entityCountry := bumpEntityCountry st.entityCountry (hour, eid, country) country }
    { st with countryEntity := bumpCountryEntity st.countryEntity (hour, country, eid) eid ent.name etype }

/-- Embeds `FirestoreRollup.apply_for_article` (the transaction body): return
silently when the referenced article does not exist or is already marked
`rollups_done`; otherwise derive the bucket and country, mark the article as
processed, create the hour document, bump the country total, and bump the
per-entity counters for every entity entry carrying a name.  `now` passes in
`datetime.now(timezone.utc)`. -/
def apply_for_article (st : RollupState) (articleId : String) (now : DateTimeUTC) :
    RollupState :=
  match mapFind st.articles articleId with
  | none => st
  | some a =>
    if a.rollups_done then st
    else
      let hour := a.derivedHour now
      let country := a.derivedCountry
      let a2 := { a with hour := hour, rollups_done := true }
      let st1 := { st with articles := mapSet st.articles articleId a2 }
      let st2 := { st1 with hourDocs := insertHourDoc st1.hourDocs hour }
      let st3 := { st2 with countryTotal := bumpCountryTotal st2.countryTotal (hour, country) country }
      a.entities.foldl (applyEntity hour country) st3

/-- A whole at-least-once delivery history: apply the rollup to each
referenced article in turn, each call seeing its own current time. -/
def applyAll (st : RollupState) (calls : List (String × DateTimeUTC)) : RollupState :=
  calls.foldl (fun s c => apply_for_article s c.1 c.2) st

/-- The numeric reading of one cell of a counter family: `f` projects the
counter field, a missing cell reads as 0. -/
def valOf {κ α : Type} [DecidableEq κ] (f : α → Int) (m : List (κ × α)) (k : κ) : Int :=
  match mapFind m k with
  | some c => f c
  | none => 0

/-- The sum of the counter fields of all cells whose key satisfies `pred`. -/
def sumOf {κ α : Type} (f : α → Int) (pred : κ → Bool) (m : List (κ × α)) : Int :=
  ((m.filter (fun p => pred p.1)).map (fun p => f p.2)).sum

/-- Reads `EntityTotal(bucket, entityId).count` back from the state. -/
def entityTotalCount (st : RollupState) (b e : String) : Int :=
  valOf (fun cell => cell.total) st.entityTotal (b, e)

/-- Reads `CountryTotal(bucket, country)` back from the state. -/
def countryTotalCount (st : RollupState) (b iso : String) : Int :=
  valOf (fun cell => cell.total) st.countryTotal (b, iso)

/-- Reads `EntityCountryBreakdown(bucket, entityId, country)` back. -/
def entityCountryCount (st : RollupState) (b e iso : String) : Int :=
  valOf (fun cell => cell.count) st.entityCountry (b, e, iso)

/-- Reads `CountryEntityBreakdown(bucket, country, entityId)` back. -/
def countryEntityCount (st : RollupState) (b iso e : String) : Int :=
  valOf (fun cell => cell.count) st.countryEntity (b, iso, e)

/-- The sum over every country of `EntityCountryBreakdown(b, e, country)`:
total of the `count` fields of all entity-country cells for bucket `b` and
entity `e`. -/
def sumEntityCountry (st : RollupState) (b e : String) : Int :=
  sumOf (fun cell => cell.count) (fun k => k.1 == b && k.2.1 == e) st.entityCountry

/-- The number of entries of an article's entity list that carry a name and
normalize to the identifier `e`. -/
def entityOccurrences (ents : List EntityRef) (e : String) : Nat :=
  ents.countP (fun ent => ent.name != "" && slugify ent.name == e)

/-- A concrete article whose two entity entries normalize to the same
identifier (`slugify "NASA" = slugify "nasa" = "nasa"`). -/
def dupEntityArticle : ArticleDoc :=
  ⟨none, "2025110110", "USA", [⟨"NASA", "ORG"⟩, ⟨"nasa", "ORG"⟩], false⟩

/-- A state holding only `dupEntityArticle`, with empty counters. -/
def dupEntityState : RollupState := RollupState.init [("a1", dupEntityArticle)]

/-- A concrete article with no timestamp and no stored hour. -/
def noTimeArticle : ArticleDoc := ⟨none, "", "USA", [⟨"NASA", "ORG"⟩], false⟩

/-- A state holding only `noTimeArticle`, with empty counters. -/
def noTimeState : RollupState := RollupState.init [("a1", noTimeArticle)]

/-- A concrete current time: 2025-11-01 10:00 UTC. -/
def now0 : DateTimeUTC := ⟨2025, 11, 1, 10⟩

instance : IsTotal (String × Int) (fun p q => q.2 ≤ p.2) :=
  ⟨fun a b => le_total b.2 a.2⟩

instance : IsTrans (String × Int) (fun p q => q.2 ≤ p.2) :=
  ⟨fun _ _ _ hab hbc => le_trans hbc hab⟩

/-! ### Helper lemmas: association-list maps -/

theorem bumpWith_val {κ α : Type} [DecidableEq κ] (f : α → Int) (m : List (κ × α)) (k : κ)
    (create : α) (update : α → α) (hc : f create = 1) (hu : ∀ c, f (update c) = f c + 1)
    (k2 : κ) :
    valOf f (bumpWith m k create update) k2 = valOf f m k2 + (if k = k2 then 1 else 0) := by
  induction m with
  | nil =>
    by_cases h : k = k2
    · simp [bumpWith, valOf, mapFind, h, hc]
    · simp [bumpWith, valOf, mapFind, h]
  | cons p rest ih =>
    by_cases h : p.1 = k
    · by_cases h2 : k = k2
      · simp [bumpWith, valOf, mapFind, h, h2, hu]
      · have hp2 : ¬ p.1 = k2 := fun he => h2 (h ▸ he)
        simp [bumpWith, valOf, mapFind, h, h2, hp2]
    · by_cases h2 : p.1 = k2
      · have hkk2 : ¬ k = k2 := fun he => h (he ▸ h2)
        simp only [bumpWith, if_neg h]
        simp [valOf, mapFind, h2, hkk2]
      · have := ih
        simp only [valOf, bumpWith, if_neg h, mapFind, if_neg h2] at this ⊢
        exact this

theorem sumOf_cons {κ α : Type} (f : α → Int) (pred : κ → Bool) (p : κ × α)
    (l : List (κ × α)) :
    sumOf f pred (p :: l) = (if pred p.1 = true then f p.2 else 0) + sumOf f pred l := by
  by_cases h : pred p.1 = true <;> simp [sumOf, List.filter_cons, h]

theorem bumpWith_sum {κ α : Type} [DecidableEq κ] (f : α → Int) (pred : κ → Bool)
    (m : List (κ × α)) (k : κ) (create : α) (update : α → α)
    (hc : f create = 1) (hu : ∀ c, f (update c) = f c + 1) :
    sumOf f pred (bumpWith m k create update)
      = sumOf f pred m + (if pred k = true then 1 else 0) := by
  induction m with
  | nil =>
    simp only [bumpWith, sumOf_cons, hc]
    by_cases h : pred k = true <;> simp [sumOf, h]
  | cons p rest ih =>
    by_cases h : p.1 = k
    · simp only [bumpWith, if_pos h]
      rw [sumOf_cons, sumOf_cons]
      simp only [h, hu]
      by_cases h2 : pred k = true
      · simp [h2]
        ring
      · simp [h2]
    · simp only [bumpWith, if_neg h, sumOf_cons, ih]
      ring

/-! ### Helper lemmas: the entity loop of apply_for_article -/

theorem applyEntity_articles (h c : String) (s : RollupState) (ent : EntityRef) :
    (applyEntity h c s ent).articles = s.articles := by
  unfold applyEntity
  split <;> rfl

theorem applyEntity_hourDocs (h c : String) (s : RollupState) (ent : EntityRef) :
    (applyEntity h c s ent).hourDocs = s.hourDocs := by
  unfold applyEntity
  split <;> rfl

theorem applyEntity_countryTotal (h c : String) (s : RollupState) (ent : EntityRef) :
    (applyEntity h c s ent).countryTotal = s.countryTotal := by
  unfold applyEntity
  split <;> rfl

theorem foldl_applyEntity_articles (h c : String) (ents : List EntityRef) (s : RollupState) :
    (ents.foldl (applyEntity h c) s).articles = s.articles := by
  induction ents generalizing s with
  | nil => rfl
  | cons ent rest ih => rw [List.foldl_cons, ih, applyEntity_articles]

theorem foldl_applyEntity_countryTotal (h c : String) (ents : List EntityRef) (s : RollupState) :
    (ents.foldl (applyEntity h c) s).countryTotal = s.countryTotal := by
  induction ents generalizing s with
  | nil => rfl
  | cons ent rest ih => rw [List.foldl_cons, ih, applyEntity_countryTotal]

theorem applyEntity_entityTotal_eq (h c : String) (s : RollupState) (ent : EntityRef)
    (hn : ¬ ent.name = "") :
    (applyEntity h c s ent).entityTotal
      = bumpEntityTotal s.entityTotal (h, slugify ent.name) ent.name
          (if ent.type = "" then "OTHER" else ent.type) := by
  simp [applyEntity, hn]

theorem applyEntity_entityCountry_eq (h c : String) (s : RollupState) (ent : EntityRef)
    (hn : ¬ ent.name = "") :
    (applyEntity h c s ent).entityCountry
      = bumpEntityCountry s.entityCountry (h, slugify ent.name, c) c := by
  simp [applyEntity, hn]

theorem applyEntity_countryEntity_eq (h c : String) (s : RollupState) (ent : EntityRef)
    (hn : ¬ ent.name = "") :
    (applyEntity h c s ent).countryEntity
      = bumpCountryEntity s.countryEntity (h, c, slugify ent.name) (slugify ent.name)
          ent.name (if ent.type = "" then "OTHER" else ent.type) := by
  simp [applyEntity, hn]

theorem entityTotalCount_eq_valOf (st : RollupState) (b e : String) :
    entityTotalCount st b e = valOf (fun cell => cell.total) st.entityTotal (b, e) := rfl

theorem entityCountryCount_eq_valOf (st : RollupState) (b e iso : String) :
    entityCountryCount st b e iso
      = valOf (fun cell => cell.count) st.entityCountry (b, e, iso) := rfl

theorem countryEntityCount_eq_valOf (st : RollupState) (b iso e : String) :
    countryEntityCount st b iso e
      = valOf (fun cell => cell.count) st.countryEntity (b, iso, e) := rfl

theorem countryTotalCount_eq_valOf (st : RollupState) (b iso : String) :
    countryTotalCount st b iso = valOf (fun cell => cell.total) st.countryTotal (b, iso) := rfl

theorem sumEntityCountry_eq_sumOf (st : RollupState) (b e : String) :
    sumEntityCountry st b e
      = sumOf (fun cell => cell.count)
          (fun k => k.1 == b && k.2.1 == e) st.entityCountry := rfl

theorem applyEntity_entityTotalCount (h c b e : String) (s : RollupState) (ent : EntityRef) :
    entityTotalCount (applyEntity h c s ent) b e
      = entityTotalCount s b e
        + (if ent.name ≠ "" ∧ h = b ∧ slugify ent.name = e then 1 else 0) := by
  by_cases hn : ent.name = ""
  · simp [applyEntity, hn]
  · rw [entityTotalCount_eq_valOf, entityTotalCount_eq_valOf,
      applyEntity_entityTotal_eq h c s ent hn, bumpEntityTotal,
      bumpWith_val (fun cell => cell.total) s.entityTotal (h, slugify ent.name) _ _ rfl
        (fun cell => rfl) (b, e)]
    simp [Prod.ext_iff, hn]

theorem applyEntity_entityCountryCount (h c b e iso : String) (s : RollupState)
    (ent : EntityRef) :
    entityCountryCount (applyEntity h c s ent) b e iso
      = entityCountryCount s b e iso
        + (if ent.name ≠ "" ∧ h = b ∧ slugify ent.name = e ∧ c = iso then 1 else 0) := by
  by_cases hn : ent.name = ""
  · simp [applyEntity, hn]
  · rw [entityCountryCount_eq_valOf, entityCountryCount_eq_valOf,
      applyEntity_entityCountry_eq h c s ent hn, bumpEntityCountry,
      bumpWith_val (fun cell => cell.count) s.entityCountry (h, slugify ent.name, c) _ _ rfl
        (fun cell => rfl) (b, e, iso)]
    simp [Prod.ext_iff, hn, and_assoc]

theorem applyEntity_countryEntityCount (h c b e iso : String) (s : RollupState)
    (ent : EntityRef) :
    countryEntityCount (applyEntity h c s ent) b iso e
      = countryEntityCount s b iso e
        + (if ent.name ≠ "" ∧ h = b ∧ slugify ent.name = e ∧ c = iso then 1 else 0) := by
  by_cases hn : ent.name = ""
  · simp [applyEntity, hn]
  · rw [countryEntityCount_eq_valOf, countryEntityCount_eq_valOf,
      applyEntity_countryEntity_eq h c s ent hn, bumpCountryEntity,
      bumpWith_val (fun cell => cell.count) s.countryEntity (h, c, slugify ent.name) _ _ rfl
        (fun cell => rfl) (b, iso, e)]
    simp only [Prod.ext_iff, hn]
    by_cases h1 : h = b <;> by_cases h2 : slugify ent.name = e <;> by_cases h3 : c = iso <;>
      simp [h1, h2, h3, hn]

theorem applyEntity_sumEntityCountry (h c b e : String) (s : RollupState) (ent : EntityRef) :
    sumEntityCountry (applyEntity h c s ent) b e
      = sumEntityCountry s b e
        + (if ent.name ≠ "" ∧ h = b ∧ slugify ent.name = e then 1 else 0) := by
  by_cases hn : ent.name = ""
  · simp [applyEntity, hn]
  · rw [sumEntityCountry_eq_sumOf, sumEntityCountry_eq_sumOf,
      applyEntity_entityCountry_eq h c s ent hn, bumpEntityCountry,
      bumpWith_sum (fun cell => cell.count) _ s.entityCountry (h, slugify ent.name, c) _ _ rfl
        (fun cell => rfl)]
    simp [hn]

theorem entityOccurrences_cons (ent : EntityRef) (rest : List EntityRef) (e : String) :
    entityOccurrences (ent :: rest) e
      = entityOccurrences rest e
        + (if ent.name ≠ "" ∧ slugify ent.name = e then 1 else 0) := by
  simp only [entityOccurrences, List.countP_cons]
  by_cases h1 : ent.name = "" <;> by_cases h2 : slugify ent.name = e <;> simp [h1, h2]

theorem foldl_entityTotalCount (h c b e : String) (ents : List EntityRef) (s : RollupState) :
    entityTotalCount (ents.foldl (applyEntity h c) s) b e
      = entityTotalCount s b e
        + (if h = b then (entityOccurrences ents e : Int) else 0) := by
  induction ents generalizing s with
  | nil => simp [entityOccurrences]
  | cons ent rest ih =>
    rw [List.foldl_cons, ih, applyEntity_entityTotalCount, entityOccurrences_cons]
    by_cases h1 : h = b <;> by_cases h2 : ent.name ≠ "" ∧ slugify ent.name = e <;>
      simp [h1, h2] <;> push_cast <;> ring

theorem foldl_sumEntityCountry (h c b e : String) (ents : List EntityRef) (s : RollupState) :
    sumEntityCountry (ents.foldl (applyEntity h c) s) b e
      = sumEntityCountry s b e
        + (if h = b then (entityOccurrences ents e : Int) else 0) := by
  induction ents generalizing s with
  | nil => simp [entityOccurrences]
  | cons ent rest ih =>
    rw [List.foldl_cons, ih, applyEntity_sumEntityCountry, entityOccurrences_cons]
    by_cases h1 : h = b <;> by_cases h2 : ent.name ≠ "" ∧ slugify ent.name = e <;>
      simp [h1, h2] <;> push_cast <;> ring

theorem foldl_entityCountryCount (h c b e iso : String) (ents : List EntityRef)
    (s : RollupState) :
    entityCountryCount (ents.foldl (applyEntity h c) s) b e iso
      = entityCountryCount s b e iso
        + (if h = b ∧ c = iso then (entityOccurrences ents e : Int) else 0) := by
  induction ents generalizing s with
  | nil => simp [entityOccurrences]
  | cons ent rest ih =>
    rw [List.foldl_cons, ih, applyEntity_entityCountryCount, entityOccurrences_cons]
    by_cases h1 : h = b <;> by_cases h3 : c = iso <;>
      by_cases h2 : ent.name ≠ "" ∧ slugify ent.name = e <;>
      simp [h1, h2, h3, and_assoc] <;> push_cast <;> ring

theorem foldl_countryEntityCount (h c b e iso : String) (ents : List EntityRef)
    (s : RollupState) :
    countryEntityCount (ents.foldl (applyEntity h c) s) b iso e
      = countryEntityCount s b iso e
        + (if h = b ∧ c = iso then (entityOccurrences ents e : Int) else 0) := by
  induction ents generalizing s with
  | nil => simp [entityOccurrences]
  | cons ent rest ih =>
    rw [List.foldl_cons, ih, applyEntity_countryEntityCount, entityOccurrences_cons]
    by_cases h1 : h = b <;> by_cases h3 : c = iso <;>
      by_cases h2 : ent.name ≠ "" ∧ slugify ent.name = e <;>
      simp [h1, h2, h3, and_assoc] <;> push_cast <;> ring

/-! ### Helper lemmas: the three branches of apply_for_article -/

theorem apply_missing (st : RollupState) (id : String) (now : DateTimeUTC)
    (h : mapFind st.articles id = none) :
    apply_for_article st id now = st := by
  simp [apply_for_article, h]

theorem apply_processed (st : RollupState) (id : String) (now : DateTimeUTC)
    (a : ArticleDoc) (hfind : mapFind st.articles id = some a)
    (hd : a.rollups_done = true) :
    apply_for_article st id now = st := by
  simp [apply_for_article, hfind, hd]

theorem apply_not_processed (st : RollupState) (id : String) (now : DateTimeUTC)
    (a : ArticleDoc) (hfind : mapFind st.articles id = some a)
    (hnd : a.rollups_done = false) :
    apply_for_article st id now
      = a.entities.foldl (applyEntity (a.derivedHour now) a.derivedCountry)
          { st with
            articles := mapSet st.articles id
              ({ a with hour := a.derivedHour now, rollups_done := true }),
            hourDocs := insertHourDoc st.hourDocs (a.derivedHour now),
            countryTotal := bumpCountryTotal st.countryTotal
              (a.derivedHour now, a.derivedCountry) a.derivedCountry } := by
  simp [apply_for_article, hfind, hnd]

theorem mapFind_mapSet_self {κ α : Type} [DecidableEq κ] (l : List (κ × α)) (k : κ) (v : α) :
    mapFind (mapSet l k v) k = some v := by
  induction l with
  | nil => simp [mapSet, mapFind]
  | cons p rest ih =>
    by_cases h : p.1 = k
    · simp [mapSet, h, mapFind]
    · simp [mapSet, h, mapFind, ih]

theorem mapSet_length_le {κ α : Type} [DecidableEq κ] (l : List (κ × α)) (k : κ) (v : α) :
    (mapSet l k v).length ≤ l.length + 1 := by
  induction l with
  | nil => simp [mapSet]
  | cons p rest ih =>
    by_cases h : p.1 = k
    · simp [mapSet, h]
    · simp only [mapSet, if_neg h, List.length_cons]
      omega

/-! ### Helper lemmas: the superset-reuse loop -/

theorem tryParents_eq_some {store : Store} {key country entity : String} {perPage : Nat}
    {exp : Option Int} {ks : List String} {out : GetOut}
    (h : SmartArticleCache.tryParents store key exp country entity perPage ks = some out) :
    out.loaderCalled = false ∧ (∃ page, out.res = Except.ok page) ∧
    ∃ pkey ∈ ks, ∃ rows, mapFind store pkey = some rows ∧
      ∃ e, exp = some e ∧
        e ≤ ((rows.filter fun r => SmartArticleCache.matchesFilter r country entity).length : Int) := by
  induction ks with
  | nil => simp [SmartArticleCache.tryParents] at h
  | cons pk rest ih =>
    cases hexp : exp with
    | none =>
      subst hexp
      simp only [SmartArticleCache.tryParents] at h
      obtain ⟨h1, h2, pkey, hmem, hrest⟩ := ih h
      exact ⟨h1, h2, pkey, List.mem_cons_of_mem _ hmem, hrest⟩
    | some e =>
      subst hexp
      cases hfind : mapFind store pk with
      | none =>
        simp only [SmartArticleCache.tryParents, hfind] at h
        obtain ⟨h1, h2, pkey, hmem, hrest⟩ := ih h
        exact ⟨h1, h2, pkey, List.mem_cons_of_mem _ hmem, hrest⟩
      | some rows =>
        simp only [SmartArticleCache.tryParents, hfind] at h
        by_cases hle :
            e ≤ ((rows.filter fun r => SmartArticleCache.matchesFilter r country entity).length : Int)
        · rw [if_pos hle] at h
          injection h with h
          subst h
          exact ⟨rfl, ⟨_, rfl⟩, pk, List.mem_cons_self _ _, rows, hfind, e, rfl, hle⟩
        · rw [if_neg hle] at h
          obtain ⟨h1, h2, pkey, hmem, hrest⟩ := ih h
          exact ⟨h1, h2, pkey, List.mem_cons_of_mem _ hmem, hrest⟩

theorem tryParents_eq_none_of {store : Store} {key country entity : String} {perPage : Nat}
    {e : Int} {ks : List String}
    (h : ∀ pkey ∈ ks, ∀ rows, mapFind store pkey = some rows →
      ((rows.filter fun r => SmartArticleCache.matchesFilter r country entity).length : Int) < e) :
    SmartArticleCache.tryParents store key (some e) country entity perPage ks = none := by
  induction ks with
  | nil => simp [SmartArticleCache.tryParents]
  | cons pk rest ih =>
    cases hfind : mapFind store pk with
    | none =>
      simp only [SmartArticleCache.tryParents, hfind]
      exact ih fun pkey hmem rows hr => h pkey (List.mem_cons_of_mem _ hmem) rows hr
    | some rows =>
      have hlt := h pk (List.mem_cons_self _ _) rows hfind
      simp only [SmartArticleCache.tryParents, hfind]
      rw [if_neg (not_le.mpr hlt)]
      exact ih fun pkey hmem rows2 hr => h pkey (List.mem_cons_of_mem _ hmem) rows2 hr

theorem get_eq_of_miss {store : Store} {hour country entity : String}
    {t b g : List (String × Int)} {loader : Loader} {perPage : Nat}
    (hhour : hour ≠ "")
    (hmiss : mapFind store (SmartArticleCache.cacheKey hour country entity) = none) :
    SmartArticleCache.get store hour country entity t b g loader perPage
      = (match SmartArticleCache.tryParents store
            (SmartArticleCache.cacheKey hour country entity)
            (SmartArticleCache.expectedCount country entity t b g) country entity perPage
            (if country ≠ "" ∧ entity ≠ "" then
              [SmartArticleCache.cacheKey hour country "",
               SmartArticleCache.cacheKey hour "" entity]
             else []) with
         | some out => out
         | none =>
           match loader hour country entity perPage with
           | Except.ok fetched =>
             ⟨Except.ok (SmartArticleCache.sortTrim fetched perPage),
              mapSet store (SmartArticleCache.cacheKey hour country entity) fetched, true⟩
           | Except.error msg => ⟨Except.error msg, store, true⟩) := by
  rw [SmartArticleCache.get, if_neg hhour]
  simp only [hmiss]

/-! ### Claim theorems -/

/-- C10: calling `SmartArticleCache.get` with an empty (falsy) hour returns
the empty list, leaves the cache store unchanged and never invokes the
loader. -/
theorem c10_empty_hour_returns_empty (store : Store) (country entity : String)
    (t b g : List (String × Int)) (loader : Loader) (perPage : Nat) :
    SmartArticleCache.get store "" country entity t b g loader perPage
      = ⟨Except.ok [], store, false⟩ := by
  simp [SmartArticleCache.get]

/-- C7 counterexample: with only the entity filter set and an entity name
absent from a non-empty global top-entities snapshot, `_expected_count`
returns the numeric value 0 rather than an unknown (`None`) expected count. -/
theorem c7_absent_entity_counterexample :
    lookupLast [("faa", 5)] "nasa" = none ∧
    SmartArticleCache.expectedCount "" "nasa" [] [] [("faa", 5)] = some 0 := by
  exact ⟨rfl, rfl⟩

/-- C7 amended: with only the entity filter set and a non-empty global
top-entities snapshot that does not contain the entity's name, the computed
expected count is the snapshot dictionary's default, 0 (a numeric value);
`expected` is unknown only when the snapshot itself is absent or empty. -/
theorem c7_absent_entity_expected_zero (entity : String)
    (t b g : List (String × Int))
    (he : entity ≠ "") (hg : g ≠ []) (habs : lookupLast g entity = none) :
    SmartArticleCache.expectedCount "" entity t b g = some 0 := by
  unfold SmartArticleCache.expectedCount
  rw [if_neg]
  · rw [if_pos, if_pos hg]
    · simp [pyDictGet, habs]
    · exact ⟨he, rfl⟩
  · exact fun hcon => hcon.2 rfl

/-- C7 witness: the amended claim evaluated at a concrete absent entity. -/
theorem c7_absent_entity_expected_zero_witness :
    ("nasa" : String) ≠ "" ∧ ([("faa", 5)] : List (String × Int)) ≠ [] ∧
    lookupLast [("faa", 5)] "nasa" = none ∧
    SmartArticleCache.expectedCount "" "nasa" [] [] [("faa", 5)] = some 0 :=
  ⟨by decide, by decide, rfl,
    c7_absent_entity_expected_zero "nasa" [] [] [("faa", 5)] (by decide) (by decide) rfl⟩

/-- C1: for a `get` with both filters set, no exact cache entry and a known
expected count, a cached broader entry answers the query (no loader call)
only when its records filtered to both filters number at least `expected`;
and when every cached broader entry yields strictly fewer matching records,
`get` falls back to the loader. -/
theorem c1_superset_reuse_safety (store : Store) (hour country entity : String)
    (t b g : List (String × Int)) (loader : Loader) (perPage : Nat) (e : Int)
    (hhour : hour ≠ "") (hc : country ≠ "") (he : entity ≠ "")
    (hmiss : mapFind store (SmartArticleCache.cacheKey hour country entity) = none)
    (hexp : SmartArticleCache.expectedCount country entity t b g = some e) :
    ((SmartArticleCache.get store hour country entity t b g loader perPage).loaderCalled = false →
      ∃ pkey ∈ [SmartArticleCache.cacheKey hour country "",
                SmartArticleCache.cacheKey hour "" entity],
        ∃ rows, mapFind store pkey = some rows ∧
          e ≤ ((rows.filter fun r => SmartArticleCache.matchesFilter r country entity).length : Int))
    ∧
    ((∀ pkey ∈ [SmartArticleCache.cacheKey hour country "",
                SmartArticleCache.cacheKey hour "" entity],
        ∀ rows, mapFind store pkey = some rows →
          ((rows.filter fun r => SmartArticleCache.matchesFilter r country entity).length : Int) < e) →
      (SmartArticleCache.get store hour country entity t b g loader perPage).loaderCalled = true) := by
  have hg := @get_eq_of_miss store hour country entity t b g loader perPage hhour hmiss
  rw [if_pos ⟨hc, he⟩, hexp] at hg
  constructor
  · intro hlc
    rw [hg] at hlc
    cases htp : SmartArticleCache.tryParents store
        (SmartArticleCache.cacheKey hour country entity) (some e) country entity perPage
        [SmartArticleCache.cacheKey hour country "",
         SmartArticleCache.cacheKey hour "" entity] with
    | some out =>
      obtain ⟨_, _, pkey, hmem, rows, hrow, e2, hexp2, hle⟩ := tryParents_eq_some htp
      obtain rfl : e = e2 := by injection hexp2
      exact ⟨pkey, hmem, rows, hrow, hle⟩
    | none =>
      rw [htp] at hlc
      cases hload : loader hour country entity perPage with
      | ok fetched => rw [hload] at hlc; simp at hlc
      | error msg => rw [hload] at hlc; simp at hlc
  · intro hall
    have htp : SmartArticleCache.tryParents store
        (SmartArticleCache.cacheKey hour country entity) (some e) country entity perPage
        [SmartArticleCache.cacheKey hour country "",
         SmartArticleCache.cacheKey hour "" entity] = none :=
      tryParents_eq_none_of hall
    rw [hg, htp]
    cases hload : loader hour country entity perPage with
    | ok fetched => rfl
    | error msg => rfl

/-- C1 witness: a concrete miss with both filters, expected count 1, a
country-only parent entry holding one matching article. -/
theorem c1_superset_reuse_safety_witness :
    ("h" : String) ≠ "" ∧ ("USA" : String) ≠ "" ∧ ("nasa" : String) ≠ "" ∧
    mapFind [(SmartArticleCache.cacheKey "h" "USA" "",
              [Article.mk "w1" "USA" (some ["nasa"]) 5])]
        (SmartArticleCache.cacheKey "h" "USA" "nasa") = none ∧
    SmartArticleCache.expectedCount "USA" "nasa" [] [("USA", 1)] [] = some 1 ∧
    (((SmartArticleCache.get
        [(SmartArticleCache.cacheKey "h" "USA" "", [Article.mk "w1" "USA" (some ["nasa"]) 5])]
        "h" "USA" "nasa" [] [("USA", 1)] []
        (fun _ _ _ _ => Except.ok []) 3).loaderCalled = false →
      ∃ pkey ∈ [SmartArticleCache.cacheKey "h" "USA" "",
                SmartArticleCache.cacheKey "h" "" "nasa"],
        ∃ rows, mapFind [(SmartArticleCache.cacheKey "h" "USA" "",
              [Article.mk "w1" "USA" (some ["nasa"]) 5])] pkey = some rows ∧
          (1 : Int) ≤ ((rows.filter fun r => SmartArticleCache.matchesFilter r "USA" "nasa").length : Int))
    ∧
    ((∀ pkey ∈ [SmartArticleCache.cacheKey "h" "USA" "",
                SmartArticleCache.cacheKey "h" "" "nasa"],
        ∀ rows, mapFind [(SmartArticleCache.cacheKey "h" "USA" "",
              [Article.mk "w1" "USA" (some ["nasa"]) 5])] pkey = some rows →
          ((rows.filter fun r => SmartArticleCache.matchesFilter r "USA" "nasa").length : Int) < 1) →
      (SmartArticleCache.get
        [(SmartArticleCache.cacheKey "h" "USA" "", [Article.mk "w1" "USA" (some ["nasa"]) 5])]
        "h" "USA" "nasa" [] [("USA", 1)] []
        (fun _ _ _ _ => Except.ok []) 3).loaderCalled = true)) :=
  ⟨by decide, by decide, by decide, by decide, by decide,
    c1_superset_reuse_safety _ "h" "USA" "nasa" [] [("USA", 1)] [] _ 3 1
      (by decide) (by decide) (by decide) (by decide) (by decide)⟩

/-- C8: when a `get` call results in an error, the error is exactly the
loader's error (propagated to the caller) and the cache store is left
completely unchanged. -/
theorem c8_loader_error_propagates (store : Store) (hour country entity : String)
    (t b g : List (String × Int)) (loader : Loader) (perPage : Nat) (msg : String)
    (herr : (SmartArticleCache.get store hour country entity t b g loader perPage).res
      = Except.error msg) :
    loader hour country entity perPage = Except.error msg ∧
    (SmartArticleCache.get store hour country entity t b g loader perPage).store = store := by
  by_cases hhour : hour = ""
  · subst hhour
    simp [SmartArticleCache.get] at herr
  · cases hfind : mapFind store (SmartArticleCache.cacheKey hour country entity) with
    | some rows =>
      rw [SmartArticleCache.get, if_neg hhour] at herr
      simp only [hfind] at herr
      exact Except.noConfusion herr
    | none =>
      have hg := @get_eq_of_miss store hour country entity t b g loader perPage hhour hfind
      rw [hg] at herr ⊢
      cases htp : SmartArticleCache.tryParents store
          (SmartArticleCache.cacheKey hour country entity)
          (SmartArticleCache.expectedCount country entity t b g) country entity perPage
          (if country ≠ "" ∧ entity ≠ "" then
            [SmartArticleCache.cacheKey hour country "",
             SmartArticleCache.cacheKey hour "" entity]
           else []) with
      | some out =>
        rw [htp] at herr
        obtain ⟨_, ⟨page, hres⟩, _⟩ := tryParents_eq_some htp
        have herr2 : out.res = Except.error msg := herr
        rw [hres] at herr2
        exact Except.noConfusion herr2
      | none =>
        rw [htp] at herr
        cases hload : loader hour country entity perPage with
        | ok fetched =>
          rw [hload] at herr
          have herr2 : Except.ok (SmartArticleCache.sortTrim fetched perPage)
              = Except.error msg := herr
          exact Except.noConfusion herr2
        | error m2 =>
          rw [hload] at herr
          have herr2 : Except.error m2 = Except.error msg := herr
          have hm : m2 = msg := by injection herr2
          subst hm
          exact ⟨rfl, rfl⟩

/-- C8 witness: a loader that always fails, on a query that reaches the
fallback path. -/
theorem c8_loader_error_propagates_witness :
    (SmartArticleCache.get [] "h" "" "" [] [] []
        (fun _ _ _ _ => Except.error "boom") 3).res = Except.error "boom" ∧
    ((fun _ _ _ _ => Except.error "boom" : Loader) "h" "" "" 3 = Except.error "boom" ∧
      (SmartArticleCache.get [] "h" "" "" [] [] []
        (fun _ _ _ _ => Except.error "boom") 3).store = []) :=
  ⟨rfl, c8_loader_error_propagates [] "h" "" "" [] [] []
    (fun _ _ _ _ => Except.error "boom") 3 "boom" rfl⟩

/-- C9 counterexample: two entity documents with equal totals produce a
top-entities list whose counts are not strictly descending (the tie stays). -/
theorem c9_strict_descending_counterexample :
    NewsDataLoader.topEntities [⟨"a", "A", 5⟩, ⟨"b", "B", 5⟩] 2 = [("A", 5), ("B", 5)] ∧
    ¬ strictlyDescByCount [("A", 5), ("B", 5)] := by
  constructor
  · rfl
  · intro hcon
    have h5 := List.rel_of_pairwise_cons hcon (List.mem_singleton.mpr rfl)
    simp at h5

/-- C9 amended: `topEntities(bucket, limit)` returns at most `limit` entries,
ordered descending (non-increasing) by count; exact ties may appear as equal
adjacent counts. -/
theorem c9_top_entities_bounded_desc (docs : List EntityDoc) (limit : Nat) :
    (NewsDataLoader.topEntities docs limit).length ≤ limit ∧
    descByCount (NewsDataLoader.topEntities docs limit) := by
  constructor
  · have hfold : ∀ (l : List EntityDoc) (acc : List (String × Int)),
        (l.foldl (fun d doc => mapSet d doc.displayName doc.total) acc).length
          ≤ acc.length + l.length := by
      intro l
      induction l with
      | nil => intro acc; simp
      | cons d rest ih =>
        intro acc
        have h1 := ih (mapSet acc d.displayName d.total)
        have h2 := mapSet_length_le acc d.displayName d.total
        simp only [List.foldl_cons, List.length_cons]
        omega
    have hmain := hfold ((docs.insertionSort fun d1 d2 => d2.total ≤ d1.total).take limit) []
    have htake : ((docs.insertionSort fun d1 d2 => d2.total ≤ d1.total).take limit).length
        ≤ limit := by
      rw [List.length_take]
      exact min_le_left _ _
    unfold NewsDataLoader.topEntities
    rw [List.length_insertionSort]
    simp only [List.length_nil] at hmain
    omega
  · unfold NewsDataLoader.topEntities descByCount
    exact List.sorted_insertionSort (fun p q : String × Int => q.2 ≤ p.2) _

/-- C2: applying the rollup twice to the same event yields a state identical
to applying it once; once the first call has set the `rollups_done` marker,
every later call returns normally with no change to counters or stored
state. -/
theorem c2_apply_for_article_idempotent (st : RollupState) (id : String)
    (now1 now2 : DateTimeUTC) :
    apply_for_article (apply_for_article st id now1) id now2
      = apply_for_article st id now1 := by
  cases hfind : mapFind st.articles id with
  | none =>
    rw [apply_missing st id now1 hfind]
    exact apply_missing st id now2 hfind
  | some a =>
    by_cases hd : a.rollups_done = true
    · rw [apply_processed st id now1 a hfind hd]
      exact apply_processed st id now2 a hfind hd
    · have hnd : a.rollups_done = false := by
        cases hval : a.rollups_done
        · rfl
        · exact absurd hval hd
      have harts : (apply_for_article st id now1).articles
          = mapSet st.articles id
              ({ a with hour := a.derivedHour now1, rollups_done := true }) := by
        rw [apply_not_processed st id now1 a hfind hnd, foldl_applyEntity_articles]
      have hfind2 : mapFind (apply_for_article st id now1).articles id
          = some ({ a with hour := a.derivedHour now1, rollups_done := true }) := by
        rw [harts]
        exact mapFind_mapSet_self st.articles id _
      exact apply_processed _ id now2 _ hfind2 rfl

/-- C3: after any sequence of rollup applications starting from empty
counters, for every bucket and entity the sum over all countries of the
entity-country breakdown equals the entity total. -/
theorem c3_conservation (arts : List (String × ArticleDoc))
    (calls : List (String × DateTimeUTC)) (b e : String) :
    sumEntityCountry (applyAll (RollupState.init arts) calls) b e
      = entityTotalCount (applyAll (RollupState.init arts) calls) b e := by
  have step : ∀ (st : RollupState) (id : String) (now : DateTimeUTC),
      (∀ b2 e2, sumEntityCountry st b2 e2 = entityTotalCount st b2 e2) →
      ∀ b2 e2, sumEntityCountry (apply_for_article st id now) b2 e2
        = entityTotalCount (apply_for_article st id now) b2 e2 := by
    intro st id now hinv b2 e2
    cases hfind : mapFind st.articles id with
    | none =>
      rw [apply_missing st id now hfind]
      exact hinv b2 e2
    | some a =>
      by_cases hd : a.rollups_done = true
      · rw [apply_processed st id now a hfind hd]
        exact hinv b2 e2
      · have hnd : a.rollups_done = false := by
          cases hval : a.rollups_done
          · rfl
          · exact absurd hval hd
        rw [apply_not_processed st id now a hfind hnd,
          foldl_sumEntityCountry, foldl_entityTotalCount]
        exact congrArg₂ (· + ·) (hinv b2 e2) rfl
  have main : ∀ (calls2 : List (String × DateTimeUTC)) (st : RollupState),
      (∀ b2 e2, sumEntityCountry st b2 e2 = entityTotalCount st b2 e2) →
      ∀ b2 e2, sumEntityCountry (applyAll st calls2) b2 e2
        = entityTotalCount (applyAll st calls2) b2 e2 := by
    intro calls2
    induction calls2 with
    | nil => intro st hinv; exact hinv
    | cons call rest ih =>
      intro st hinv
      have hstep : applyAll st (call :: rest)
          = applyAll (apply_for_article st call.1 call.2) rest := by
        simp [applyAll]
      rw [hstep]
      exact ih _ (step st call.1 call.2 hinv)
  exact main calls (RollupState.init arts) (fun b2 e2 => rfl) b e

/-- C4 counterexample: an event whose entity list holds two entries that
normalize to the same identifier increments that identifier's per-hour total
twice, not once — the loop does not deduplicate by normalized identifier. -/
theorem c4_no_dedup_counterexample :
    slugify "NASA" = "nasa" ∧ slugify "nasa" = "nasa" ∧
    entityTotalCount (apply_for_article dupEntityState "a1" now0) "2025110110" "nasa" = 2 ∧
    entityCountryCount (apply_for_article dupEntityState "a1" now0) "2025110110" "nasa" "USA"
      = 2 ∧
    countryEntityCount (apply_for_article dupEntityState "a1" now0) "2025110110" "USA" "nasa"
      = 2 := by
  decide

/-- C4 amended: for an unprocessed event, each of EntityTotal,
EntityCountryBreakdown and CountryEntityBreakdown for an identifier `e` rises
by the number of entity entries carrying a name that normalizes to `e` — once
per entry, with no deduplication of entries whose names normalize alike. -/
theorem c4_per_entry_increments (st : RollupState) (id : String) (now : DateTimeUTC)
    (a : ArticleDoc) (hfind : mapFind st.articles id = some a)
    (hnd : a.rollups_done = false) (e : String) :
    entityTotalCount (apply_for_article st id now) (a.derivedHour now) e
      = entityTotalCount st (a.derivedHour now) e
        + (entityOccurrences a.entities e : Int) ∧
    entityCountryCount (apply_for_article st id now) (a.derivedHour now) e a.derivedCountry
      = entityCountryCount st (a.derivedHour now) e a.derivedCountry
        + (entityOccurrences a.entities e : Int) ∧
    countryEntityCount (apply_for_article st id now) (a.derivedHour now) a.derivedCountry e
      = countryEntityCount st (a.derivedHour now) a.derivedCountry e
        + (entityOccurrences a.entities e : Int) := by
  rw [apply_not_processed st id now a hfind hnd]
  refine ⟨?_, ?_, ?_⟩
  · rw [foldl_entityTotalCount]
    simp
    rfl
  · rw [foldl_entityCountryCount]
    simp
    rfl
  · rw [foldl_countryEntityCount]
    simp
    rfl

/-- C4 witness: the amended per-entry counting evaluated on the concrete
duplicate-entity article. -/
theorem c4_per_entry_increments_witness :
    mapFind dupEntityState.articles "a1" = some dupEntityArticle ∧
    dupEntityArticle.rollups_done = false ∧
    (entityTotalCount (apply_for_article dupEntityState "a1" now0)
        (dupEntityArticle.derivedHour now0) "nasa"
      = entityTotalCount dupEntityState (dupEntityArticle.derivedHour now0) "nasa"
        + (entityOccurrences dupEntityArticle.entities "nasa" : Int) ∧
    entityCountryCount (apply_for_article dupEntityState "a1" now0)
        (dupEntityArticle.derivedHour now0) "nasa" dupEntityArticle.derivedCountry
      = entityCountryCount dupEntityState (dupEntityArticle.derivedHour now0) "nasa"
          dupEntityArticle.derivedCountry
        + (entityOccurrences dupEntityArticle.entities "nasa" : Int) ∧
    countryEntityCount (apply_for_article dupEntityState "a1" now0)
        (dupEntityArticle.derivedHour now0) dupEntityArticle.derivedCountry "nasa"
      = countryEntityCount dupEntityState (dupEntityArticle.derivedHour now0)
          dupEntityArticle.derivedCountry "nasa"
        + (entityOccurrences dupEntityArticle.entities "nasa" : Int)) :=
  ⟨rfl, rfl, c4_per_entry_increments dupEntityState "a1" now0 dupEntityArticle rfl rfl "nasa"⟩

/-- C5 counterexample: an event missing its timestamp (and stored hour) is
not dropped — the country total for the bucket derived from the current time
is incremented, contradicting the logged-and-dropped MalformedEvent claim. -/
theorem c5_missing_time_counterexample :
    noTimeArticle.time = none ∧ noTimeArticle.hour = "" ∧
    countryTotalCount (apply_for_article noTimeState "a1" now0) "2025110110" "USA" = 1 := by
  decide

/-- C5 amended: an unprocessed event missing its timestamp (and stored hour)
is processed normally, with `datetime.now` substituted for the missing value:
the country total in the bucket of the current time rises by 1. -/
theorem c5_missing_time_uses_now (st : RollupState) (id : String) (now : DateTimeUTC)
    (a : ArticleDoc) (hfind : mapFind st.articles id = some a)
    (hnd : a.rollups_done = false) (htime : a.time = none) (hhour : a.hour = "") :
    countryTotalCount (apply_for_article st id now) (hour_bucket now) a.derivedCountry
      = countryTotalCount st (hour_bucket now) a.derivedCountry + 1 := by
  have hdh : a.derivedHour now = hour_bucket now := by
    simp [ArticleDoc.derivedHour, htime, hhour]
  rw [apply_not_processed st id now a hfind hnd]
  simp only [countryTotalCount]
  rw [foldl_applyEntity_countryTotal]
  dsimp only
  rw [hdh]
  unfold bumpCountryTotal
  rw [bumpWith_val (fun cell => cell.total) st.countryTotal
    (hour_bucket now, a.derivedCountry) _ _ rfl (fun cell => rfl)
    (hour_bucket now, a.derivedCountry)]
  simp

/-- C5 witness: the amended behaviour evaluated on the concrete
missing-timestamp article. -/
theorem c5_missing_time_uses_now_witness :
    mapFind noTimeState.articles "a1" = some noTimeArticle ∧
    noTimeArticle.rollups_done = false ∧
    noTimeArticle.time = none ∧ noTimeArticle.hour = "" ∧
    countryTotalCount (apply_for_article noTimeState "a1" now0) (hour_bucket now0)
        noTimeArticle.derivedCountry
      = countryTotalCount noTimeState (hour_bucket now0) noTimeArticle.derivedCountry + 1 :=
  ⟨rfl, rfl, rfl, rfl,
    c5_missing_time_uses_now noTimeState "a1" now0 noTimeArticle rfl rfl rfl rfl⟩

/-- C6 counterexample: applying the rollup to a reference whose article does
not exist returns normally with the state unchanged — no error is raised or
propagated to the caller. -/
theorem c6_missing_ref_counterexample :
    mapFind (RollupState.init []).articles "missing" = none ∧
    apply_for_article (RollupState.init []) "missing" now0 = RollupState.init [] :=
  ⟨rfl, rfl⟩

/-- C6 amended: a missing event reference makes `apply_for_article` return
silently with no effect on any state (the `if not snap.exists: return`
branch); no error is propagated. -/
theorem c6_missing_ref_silent_no_op (st : RollupState) (id : String) (now : DateTimeUTC)
    (h : mapFind st.articles id = none) :
    apply_for_article st id now = st :=
  apply_missing st id now h

/-- C6 witness: the silent no-op on a concrete empty state. -/
theorem c6_missing_ref_silent_no_op_witness :
    mapFind (RollupState.init []).articles "missing2" = none ∧
    apply_for_article (RollupState.init []) "missing2" now0 = RollupState.init [] :=
  ⟨rfl, c6_missing_ref_silent_no_op (RollupState.init []) "missing2" now0 rfl⟩

end NWM
